import Mathlib

/-!
# Verification of the contract static-analysis engine

Shallow embedding of the smart-contract static-analysis engine of
`src/core/multimodal_processor.py` (class `MultimodalInputProcessor`), together
with proofs settling the specification claims about it.

Python strings are modelled as `List Char` (with `String` at the API surface,
converted through `String.data`).  Python's substring membership test (`in`),
`str.count` (non-overlapping, left-to-right), `str.split('\n')` and `str.strip`
are reproduced as the executable functions below.
-/

namespace RwaEngine

/-- Word character for the regex class `\w` (ASCII fragment, the inputs of
interest are ASCII source code): letters, digits and underscore. -/
def isWordChar (c : Char) : Bool := c.isAlphanum || c = '_'

/-- Python's substring membership test `p in s`. -/
def isSubstr (p : List Char) : List Char → Bool
  | [] => p.isEmpty
  | c :: rest => p.isPrefixOf (c :: rest) || isSubstr p rest

/-- Scanner for `countSub`: `skip` is the number of characters still covered by
the previous match, so a new match may only be recognised once it reaches 0. -/
def countSubAux (p : List Char) : ℕ → List Char → ℕ
  | k + 1, _ :: rest => countSubAux p k rest
  | _ + 1, [] => 0
  | 0, [] => 0
  | 0, c :: rest =>
    if p.isPrefixOf (c :: rest) then 1 + countSubAux p (p.length - 1) rest
    else countSubAux p 0 rest

/-- Python's `s.count(p)`: number of non-overlapping occurrences of `p` in `s`,
scanning left to right and skipping past each match. -/
def countSub (p : List Char) (s : List Char) : ℕ :=
  if p = [] then s.length + 1 else countSubAux p 0 s

/-- Python's `s.split('\n')`: always returns at least one piece. -/
def splitLines : List Char → List (List Char)
  | [] => [[]]
  | c :: rest =>
    if c = '\n' then [] :: splitLines rest
    else
      match splitLines rest with
      | [] => [[c]]
      | x :: xs => (c :: x) :: xs

/-- Python's `s.strip()` (whitespace on both ends). -/
def trimWs (l : List Char) : List Char :=
  ((l.dropWhile Char.isWhitespace).reverse.dropWhile Char.isWhitespace).reverse

/-- Python's `s.lower()` (ASCII fragment). -/
def lowerStr (l : List Char) : List Char := l.map Char.toLower

/-- `s.count(p)` lifted to `String` arguments. -/
def strCount (s p : String) : ℕ := countSub p.data s.data

theorem splitLines_ne_nil (l : List Char) : splitLines l ≠ [] := by
  match l with
  | [] => simp [splitLines]
  | c :: rest =>
    by_cases h : c = '\n' <;> simp only [splitLines, h, if_true, if_false, reduceIte] <;>
      cases hr : splitLines rest <;> simp

/-- Python's `s.split(sep)` for a one-character separator. -/
def splitOnChar (sep : Char) : List Char → List (List Char)
  | [] => [[]]
  | c :: rest =>
    if c = sep then [] :: splitOnChar sep rest
    else
      match splitOnChar sep rest with
      | [] => [[c]]
      | x :: xs => (c :: x) :: xs

/-- Suffix of `s` following the first occurrence of `p` (used by the
spec-modelled return-type slicing). -/
def dropThroughSub (p : List Char) : List Char → List Char
  | [] => []
  | c :: rest =>
    if p.isPrefixOf (c :: rest) then (c :: rest).drop p.length
    else dropThroughSub p rest

/-! ## Keyword tables (`_init_security_keywords` and friends) -/

/-- The category → keyword table of `_init_security_keywords`, in the
declaration (= Python dict insertion) order of the source. -/
def securityKeywords : List (String × List String) :=
  [("reentrancy", ["call", "send", "transfer", "delegatecall", "call.value"]),
   ("access_control",
    ["onlyOwner", "onlyAdmin", "require", "modifier", "msg.sender", "tx.origin"]),
   ("overflow", ["add", "sub", "mul", "div", "++", "--", "+=", "-=", "*=", "/="]),
   ("timestamp", ["block.timestamp", "now", "block.number", "block.difficulty"]),
   ("randomness", ["blockhash", "block.difficulty", "keccak256", "sha256"]),
   ("external_calls", ["call", "delegatecall", "staticcall", "send", "transfer"]),
   ("state_changes", ["storage", "mapping", "struct", "array"]),
   ("gas", ["gasleft", "gas", "gasLimit", "gasPrice"]),
   ("assembly", ["assembly", "inline", "low-level"]),
   ("selfdestruct", ["selfdestruct", "suicide"]),
   ("fallback", ["fallback", "receive", "payable"])]

/-- The per-category threshold dict of `_assess_pattern_risk_level`
(`high`, `medium`). -/
def riskThresholds : List (String × ℕ × ℕ) :=
  [("reentrancy", 3, 1), ("external_calls", 5, 2),
   ("assembly", 2, 1), ("selfdestruct", 1, 0)]

/-- `_assess_pattern_risk_level`: explicit thresholds when present, the
`{"high": 5, "medium": 2}` default otherwise. -/
def assessPatternRiskLevel (patternType : String) (count : ℕ) : String :=
  let th := (riskThresholds.lookup patternType).getD (5, 2)
  if th.1 ≤ count then "HIGH"
  else if th.2 ≤ count then "MEDIUM"
  else "LOW"

/-- `_generate_pattern_description`: the five-entry description dict with an
f-string default. -/
def generatePatternDescription (patternType : String) (count : ℕ) : String :=
  if patternType = "reentrancy" then "檢測到 " ++ toString count ++ " 個可能的重入攻擊點"
  else if patternType = "access_control" then "發現 " ++ toString count ++ " 個存取控制相關模式"
  else if patternType = "external_calls" then "識別出 " ++ toString count ++ " 個外部調用"
  else if patternType = "timestamp" then "發現 " ++ toString count ++ " 個時間戳依賴"
  else if patternType = "assembly" then "檢測到 " ++ toString count ++ " 個彙編代碼塊"
  else "檢測到 " ++ toString count ++ " 個 " ++ patternType ++ " 模式"

/-! ## Lexical line index (`_analyze_basic_structure`) -/

/-- Line statistics record returned by `_analyze_basic_structure`.  The mean is
kept as an exact rational (`np.mean` computes the same sum/length). -/
structure BasicStructure where
  total_lines : ℕ
  non_empty_lines : ℕ
  comment_lines : ℕ
  blank_lines : ℕ
  average_line_length : ℚ
  max_line_length : ℕ
  deriving DecidableEq, Repr

/-- `_analyze_basic_structure`. -/
def basicStructure (code : String) : BasicStructure :=
  let lines := splitLines code.data
  let nonEmpty := lines.filter (fun l => trimWs l ≠ [])
  { total_lines := lines.length
    non_empty_lines := nonEmpty.length
    comment_lines := (lines.filter (fun l => "//".data.isPrefixOf (trimWs l))).length
    blank_lines := lines.length - nonEmpty.length
    average_line_length := (lines.map (fun l => (l.length : ℚ))).sum / (lines.length : ℚ)
    max_line_length :=
      match lines.map List.length with
      | [] => 0
      | x :: xs => xs.foldl max x }

/-! ## Structural counter (`_parse_contract_ast`) -/

/-- Matcher for one position of `re.findall(r'pragma\s+\w+\s+[^;]+;', ...)`:
on success returns the matched text and the remaining input after it.  The
greedy `\s+` / `\w+` / `[^;]+` pieces are maximal runs (the character classes
are disjoint from their successors, so backtracking cannot produce any other
match). -/
def matchPragmaAt (l : List Char) : Option (List Char × List Char) :=
  if "pragma".data.isPrefixOf l then
    let r0 := l.drop 6
    let ws1 := r0.takeWhile Char.isWhitespace
    let r1 := r0.dropWhile Char.isWhitespace
    let wd := r1.takeWhile isWordChar
    let r2 := r1.dropWhile isWordChar
    let ws2 := r2.takeWhile Char.isWhitespace
    let r3 := r2.dropWhile Char.isWhitespace
    let body := r3.takeWhile (fun c => c ≠ ';')
    let r4 := r3.dropWhile (fun c => c ≠ ';')
    if ws1 ≠ [] ∧ wd ≠ [] ∧ ws2 ≠ [] ∧ body ≠ [] then
      match r4 with
      | ';' :: rest => some ("pragma".data ++ ws1 ++ wd ++ ws2 ++ body ++ [';'], rest)
      | _ => none
    else none
  else none

/-- Left-to-right scan of `re.findall`, resuming after each match.  The fuel is
an upper bound on the scanning steps; every step consumes at least one input
character, so `l.length` fuel is always enough. -/
def findPragmasAux : ℕ → List Char → List (List Char)
  | 0, _ => []
  | _, [] => []
  | fuel + 1, c :: rest =>
    match matchPragmaAt (c :: rest) with
    | some (m, r) => m :: findPragmasAux fuel r
    | none => findPragmasAux fuel rest

/-- `re.findall(r'pragma\s+\w+\s+[^;]+;', code)`. -/
def findPragmas (code : List Char) : List (List Char) :=
  findPragmasAux code.length code

/-- The Solidity-specific counts that `_parse_contract_ast` adds when the
declared language is `"solidity"`. -/
structure SolidityAstExtras where
  mappings_count : ℕ
  arrays_count : ℕ
  inheritance_count : ℕ
  using_statements : ℕ
  assembly_blocks : ℕ
  deriving DecidableEq, Repr

/-- Output of `_parse_contract_ast`; the dialect-specific keys of the source's
dict become an `Option` component. -/
structure AstInfo where
  contracts_count : ℕ
  interfaces_count : ℕ
  libraries_count : ℕ
  functions_count : ℕ
  modifiers_count : ℕ
  events_count : ℕ
  structs_count : ℕ
  enums_count : ℕ
  imports_count : ℕ
  pragma_directives : List String
  solidity_extras : Option SolidityAstExtras
  deriving DecidableEq, Repr

/-- `_parse_contract_ast`. -/
def parseContractAst (code lang : String) : AstInfo :=
  { contracts_count := strCount code "contract "
    interfaces_count := strCount code "interface "
    libraries_count := strCount code "library "
    functions_count := strCount code "function "
    modifiers_count := strCount code "modifier "
    events_count := strCount code "event "
    structs_count := strCount code "struct "
    enums_count := strCount code "enum "
    imports_count := strCount code "import "
    pragma_directives := (findPragmas code.data).map String.mk
    solidity_extras :=
      if lang.toLower = "solidity" then
        some { mappings_count := strCount code "mapping("
               arrays_count := strCount code "[]"
               inheritance_count := strCount code " is "
               using_statements := strCount code "using "
               assembly_blocks := strCount code "assembly \x7b" }
      else none }

/-! ## Function extractor -/

/-- `ContractFunction` dataclass. -/
structure ContractFunction where
  name : String
  line_number : ℕ
  signature : String
  visibility : String
  state_mutability : String
  modifiers : List String
  parameters : List String
  return_type : Option String
  is_payable : Bool
  is_critical : Bool
  deriving DecidableEq, Repr

/-- The visibility vocabulary of `_extract_visibility`, in probe order. -/
def visibilities : List String := ["public", "private", "internal", "external"]

/-- `_extract_visibility`: first visibility literally contained in the line,
else `"unknown"`. -/
def extractVisibility (line : List Char) : String :=
  match visibilities.find? (fun v => isSubstr v.data line) with
  | some v => v
  | none => "unknown"

/-- `_extract_state_mutability`: `pure` / `view` / `payable` / `nonpayable`
probed in that order. -/
def extractStateMutability (line : List Char) : String :=
  if isSubstr "pure".data line then "pure"
  else if isSubstr "view".data line then "view"
  else if isSubstr "payable".data line then "payable"
  else "nonpayable"

/-- The known-modifier vocabulary of `_extract_function_modifiers`. -/
def commonModifiers : List String :=
  ["payable", "view", "pure", "onlyOwner", "nonReentrant",
   "whenNotPaused", "onlyAdmin", "onlyMinter"]

/-- `_extract_function_modifiers`. -/
def extractFunctionModifiers (line : List Char) : List String :=
  commonModifiers.filter (fun m => isSubstr m.data line)

/-- The high-impact vocabulary of `_is_critical_function`. -/
def criticalKeywords : List String :=
  ["mint", "burn", "transfer", "withdraw", "deposit", "pause",
   "unpause", "upgrade", "destroy", "selfdestruct", "owner",
   "admin", "emergency", "rescue"]

/-- `_is_critical_function`: any critical keyword inside the lower-cased
function name or line. -/
def isCriticalFunction (funcName line : List Char) : Bool :=
  criticalKeywords.any (fun kw =>
    isSubstr kw.data (lowerStr funcName) || isSubstr kw.data (lowerStr line))

/-- Attempt of the regex `function\s+(\w+)` at one fixed position: the literal
`function`, a nonempty whitespace run, then a nonempty word run (the group). -/
def funcNameAt (l : List Char) : Option (List Char) :=
  if "function".data.isPrefixOf l then
    let r := l.drop 8
    let ws := r.takeWhile Char.isWhitespace
    let nm := (r.dropWhile Char.isWhitespace).takeWhile isWordChar
    if ws ≠ [] ∧ nm ≠ [] then some nm else none
  else none

/-- `re.search(r'function\s+(\w+)', line)`: group 1 of the leftmost match. -/
def extractFuncName : List Char → Option (List Char)
  | [] => none
  | c :: rest =>
    match funcNameAt (c :: rest) with
    | some nm => some nm
    | none => extractFuncName rest

/-- Scanner for `\bfunction\s+\w+`: `prev` is the character before the current
position, used for the word-boundary test (`f` is a word character, so the
boundary holds exactly when `prev` is absent or not a word character). -/
def hasFuncDeclAux (prev : Option Char) : List Char → Bool
  | [] => false
  | c :: rest =>
    ((match prev with
      | none => true
      | some p => !(isWordChar p)) && (funcNameAt (c :: rest)).isSome)
      || hasFuncDeclAux (some c) rest

/-- `re.search(r'\bfunction\s+\w+', line)` as a Boolean test. -/
def hasFuncDecl (l : List Char) : Bool := hasFuncDeclAux none l

/-- Modelled from the spec: `_extract_function_parameters` is called by
`_analyze_single_function` but absent from `src/`; §4.3 prescribes best-effort
substring slicing between the declaration parentheses, recording whatever text
is captured (empty if absent). -/
def extractFunctionParameters (line : List Char) : List String :=
  let inner := ((line.dropWhile (fun c => c ≠ '(')).drop 1).takeWhile (fun c => c ≠ ')')
  if trimWs inner = [] then []
  else (splitOnChar ',' inner).map (fun p => String.mk (trimWs p))

/-- Modelled from the spec: `_extract_return_type` is called by
`_analyze_single_function` but absent from `src/`; §4.3 prescribes best-effort
slicing (text between the parentheses after `returns`), or `None` if absent. -/
def extractReturnType (line : List Char) : Option String :=
  if isSubstr "returns".data line then
    let tl := dropThroughSub "returns".data line
    some (String.mk
      (trimWs (((tl.dropWhile (fun c => c ≠ '(')).drop 1).takeWhile (fun c => c ≠ ')'))))
  else none

/-- `_analyze_single_function` (with the two spec-modelled helpers above; the
remaining field extractions are translated from the source). -/
def analyzeSingleFunction (line : List Char) (lineNumber : ℕ) : Option ContractFunction :=
  match extractFuncName line with
  | none => none
  | some nm =>
    some { name := String.mk nm
           line_number := lineNumber
           signature := String.mk (trimWs line)
           visibility := extractVisibility line
           state_mutability := extractStateMutability line
           modifiers := extractFunctionModifiers line
           parameters := extractFunctionParameters line
           return_type := extractReturnType line
           is_payable := isSubstr "payable".data line
           is_critical := isCriticalFunction nm line }

/-- `_extract_and_analyze_functions`: scan the lines in order, keep the
records of the lines matching `\bfunction\s+\w+`. -/
def extractAndAnalyzeFunctions (code : String) : List ContractFunction :=
  (splitLines code.data).enum.filterMap (fun il =>
    if hasFuncDecl il.2 then analyzeSingleFunction il.2 (il.1 + 1) else none)

/-! ## Pattern detector (`_detect_security_patterns`) -/

/-- `SecurityPattern` dataclass. -/
structure SecurityPattern where
  pattern_type : String
  count : ℕ
  locations : List ℕ
  risk_level : String
  description : String
  deriving DecidableEq, Repr

/-- The per-category double loop of `_detect_security_patterns`: for each line
(with its 1-based number) and each keyword of the category, a membership hit
appends the line number and increments the count. -/
def patternHits (kws : List String) (lines : List (List Char)) : ℕ × List ℕ :=
  lines.enum.foldl
    (fun acc il =>
      kws.foldl
        (fun acc2 kw =>
          if isSubstr kw.data il.2 then (acc2.1 + 1, acc2.2 ++ [il.1 + 1]) else acc2)
        acc)
    (0, [])

/-- `_detect_security_patterns`: iterate the category table in declaration
order, emitting a finding exactly when the hit count is positive. -/
def detectSecurityPatterns (code : String) : List SecurityPattern :=
  securityKeywords.filterMap (fun pk =>
    let lines := splitLines code.data
    let h := patternHits pk.2 lines
    if 0 < h.1 then
      some { pattern_type := pk.1
             count := h.1
             locations := h.2
             risk_level := assessPatternRiskLevel pk.1 h.1
             description := generatePatternDescription pk.1 h.1 }
    else none)

/-! ## Complexity analyzer -/

/-- The branching-token vocabulary of `_calculate_cyclomatic_complexity`. -/
def complexityIndicators : List String :=
  ["if", "else", "for", "while", "case", "&&", "||", "?"]

/-- `_calculate_cyclomatic_complexity`: 1 plus the substring counts of the
branching tokens over the whole text. -/
def cyclomaticComplexity (code : String) : ℕ :=
  complexityIndicators.foldl (fun acc ind => acc + strCount code ind) 1

/-- The running loop of `_calculate_max_nesting_depth`; the current depth is an
unclamped integer (it may go negative), only the maximum is reported. -/
def maxNestingDepthAux : List (List Char) → ℤ → ℤ → ℤ
  | [], _, maxDepth => maxDepth
  | l :: ls, curDepth, maxDepth =>
    let stripped := trimWs l
    let afterOpen := if '\x7b' ∈ stripped then curDepth + (stripped.count '\x7b' : ℤ) else curDepth
    let maxAfterOpen := if '\x7b' ∈ stripped then max maxDepth afterOpen else maxDepth
    let afterClose := if '\x7d' ∈ stripped then afterOpen - (stripped.count '\x7d' : ℤ) else afterOpen
    maxNestingDepthAux ls afterClose maxAfterOpen

/-- `_calculate_max_nesting_depth`. -/
def maxNestingDepth (lines : List (List Char)) : ℤ := maxNestingDepthAux lines 0 0

/-- Maximal-word-run splitter: the matches of `re.findall(r'\b\w+\b', code)`
are exactly the maximal runs of word characters.  `acc` holds the reversed
current run. -/
def wordTokensAux : List Char → List Char → List (List Char)
  | [], acc => if acc = [] then [] else [acc.reverse]
  | c :: rest, acc =>
    if isWordChar c then wordTokensAux rest (c :: acc)
    else if acc = [] then wordTokensAux rest []
    else acc.reverse :: wordTokensAux rest []

/-- `re.findall(r'\b\w+\b', code)`: the operand tokens of the Halstead scan. -/
def wordTokens (l : List Char) : List (List Char) := wordTokensAux l []

/-- The operator character class `[+\-*/=<>!&|^%]` of
`_calculate_halstead_metrics`. -/
def opChars : List Char :=
  ['+', '-', '*', '/', '=', '<', '>', '!', '&', '|', '^', '%']

/-- The `{volume, difficulty, effort}` dict of `_calculate_halstead_metrics`.
The float computation is modelled over `ℝ` (`np.log2 = Real.logb 2`). -/
structure HalsteadMetrics where
  volume : ℝ
  difficulty : ℝ
  effort : ℝ

/-- `_calculate_halstead_metrics`: distinct/total operator and operand counts;
all three metrics are 0 when either distinct count is 0. -/
noncomputable def halsteadMetrics (code : String) : HalsteadMetrics :=
  let ops := code.data.filter (fun c => c ∈ opChars)
  let operands := wordTokens code.data
  let n1 := ops.dedup.length
  let n2 := operands.dedup.length
  let bigN1 := ops.length
  let bigN2 := operands.length
  if n1 = 0 ∨ n2 = 0 then ⟨0, 0, 0⟩
  else
    let volume : ℝ := ((bigN1 + bigN2 : ℕ) : ℝ) * Real.logb 2 ((n1 + n2 : ℕ) : ℝ)
    let difficulty : ℝ := ((n1 : ℝ) / 2) * ((bigN2 : ℝ) / (n2 : ℝ))
    ⟨volume, difficulty, difficulty * volume⟩

/-- `np.log` on the nonnegative floats reached by the source:
`np.log 0 = -∞`, modelled as `⊥ : EReal`; positive arguments give the real
logarithm.  (Negative arguments, which `np.log` maps to NaN, are unreachable:
the volume is nonnegative and the line count is at least 1.) -/
noncomputable def npLog (x : ℝ) : EReal :=
  if x = 0 then ⊥ else ((Real.log x : ℝ) : EReal)

/-- `_calculate_maintainability_index`.  `lines_of_code = 0` short-circuits to
0; otherwise `171 - 5.2*np.log(volume) - 0.23*cc - 16.2*np.log(loc)` is clamped
by `max(0, min(100, ·))`.  The float arithmetic with infinities produced by
`np.log 0` is modelled faithfully in `EReal` (IEEE: `171 - 5.2·(-∞) = +∞`,
`min(100, +∞) = 100`). -/
noncomputable def maintainabilityIndexCalc (linesOfCode cyclomatic : ℕ) (volume : ℝ) : ℝ :=
  if linesOfCode = 0 then 0
  else
    (max ((0 : ℝ) : EReal)
      (min ((100 : ℝ) : EReal)
        (((171 : ℝ) : EReal) - ((5.2 : ℝ) : EReal) * npLog volume
          - ((0.23 : ℝ) : EReal) * ((cyclomatic : ℝ) : EReal)
          - ((16.2 : ℝ) : EReal) * npLog ((linesOfCode : ℕ) : ℝ)))).toReal

/-- The metrics record assembled by `_calculate_complexity_metrics`.  The
`function_complexity_distribution` entry is dropped: its method
`_calculate_function_complexity_distribution` is absent from `src/` and the
spec's `ComplexityMetrics` (§3) does not include it. -/
structure ComplexityMetrics where
  cyclomatic_complexity : ℕ
  max_nesting_depth : ℤ
  halstead_metrics : HalsteadMetrics
  maintainability_index : ℝ

/-- `_calculate_complexity_metrics`.  The `"volume"` key is always present in
the Halstead dict, so the `.get("volume", 1)` default is dead code. -/
noncomputable def calculateComplexityMetrics (code : String) : ComplexityMetrics :=
  let lines := splitLines code.data
  let cc := cyclomaticComplexity code
  let h := halsteadMetrics code
  { cyclomatic_complexity := cc
    max_nesting_depth := maxNestingDepth lines
    halstead_metrics := h
    maintainability_index := maintainabilityIndexCalc lines.length cc h.volume }

/-! ## Content hash: `hashlib.sha256(code.encode()).hexdigest()`

SHA-256 over the UTF-8 bytes, computed in `ℕ` with explicit reduction
modulo `2^32`. -/

/-- Truncation to a 32-bit word. -/
def w32 (n : ℕ) : ℕ := n % 4294967296

/-- 32-bit right rotation. -/
def rotr32 (k x : ℕ) : ℕ := w32 ((x >>> k) ||| (x <<< (32 - k)))

def smallSigma0 (x : ℕ) : ℕ := (rotr32 7 x) ^^^ (rotr32 18 x) ^^^ (x >>> 3)

def smallSigma1 (x : ℕ) : ℕ := (rotr32 17 x) ^^^ (rotr32 19 x) ^^^ (x >>> 10)

def bigSigma0 (x : ℕ) : ℕ := (rotr32 2 x) ^^^ (rotr32 13 x) ^^^ (rotr32 22 x)

def bigSigma1 (x : ℕ) : ℕ := (rotr32 6 x) ^^^ (rotr32 11 x) ^^^ (rotr32 25 x)

/-- The SHA-256 round constants (FIPS 180-4), as decimal 32-bit values. -/
def sha256K : List ℕ :=
  [1116352408, 1899447441, 3049323471, 3921009573, 961987163, 1508970993,
   2453635748, 2870763221, 3624381080, 310598401, 607225278, 1426881987,
   1925078388, 2162078206, 2614888103, 3248222580, 3835390401, 4022224774,
   264347078, 604807628, 770255983, 1249150122, 1555081692, 1996064986,
   2554220882, 2821834349, 2952996808, 3210313671, 3336571891, 3584528711,
   113926993, 338241895, 666307205, 773529912, 1294757372, 1396182291,
   1695183700, 1986661051, 2177026350, 2456956037, 2730485921, 2820302411,
   3259730800, 3345764771, 3516065817, 3600352804, 4094571909, 275423344,
   430227734, 506948616, 659060556, 883997877, 958139571, 1322822218,
   1537002063, 1747873779, 1955562222, 2024104815, 2227730452, 2361852424,
   2428436474, 2756734187, 3204031479, 3329325298]

/-- The SHA-256 initial hash state, as decimal 32-bit values. -/
def sha256H0 : List ℕ :=
  [1779033703, 3144134277, 1013904242, 2773480762,
   1359893119, 2600822924, 528734635, 1541459225]

/-- SHA-256 padding: `0x80`, zeros to 56 mod 64, 8-byte big-endian bit length. -/
def sha256Pad (msg : List ℕ) : List ℕ :=
  let len := msg.length
  let r := (len + 1) % 64
  let zeros := if r ≤ 56 then 56 - r else 120 - r
  let bitLen := 8 * len
  msg ++ [128] ++ List.replicate zeros 0 ++
    (List.range 8).map (fun i => (bitLen >>> (8 * (7 - i))) % 256)

/-- Split into 64-byte blocks (fuel-structural; every step consumes input). -/
def chunksAux : ℕ → List ℕ → List (List ℕ)
  | 0, _ => []
  | _, [] => []
  | fuel + 1, l => l.take 64 :: chunksAux fuel (l.drop 64)

def chunks64 (l : List ℕ) : List (List ℕ) := chunksAux l.length l

/-- Big-endian 4-byte words from a byte list. -/
def bytesToWordsAux : ℕ → List ℕ → List ℕ
  | 0, _ => []
  | _, [] => []
  | fuel + 1, l => (l.take 4).foldl (fun a b => a * 256 + b) 0 :: bytesToWordsAux fuel (l.drop 4)

def bytesToWords (l : List ℕ) : List ℕ := bytesToWordsAux l.length l

/-- Extend the 16 message words to the 64-word schedule. -/
def extendSchedule (ws : List ℕ) : List ℕ :=
  (List.range 48).foldl
    (fun acc _ =>
      let n := acc.length
      acc ++ [w32 (acc.getD (n - 16) 0 + smallSigma0 (acc.getD (n - 15) 0)
                    + acc.getD (n - 7) 0 + smallSigma1 (acc.getD (n - 2) 0))])
    ws

/-- One SHA-256 compression round over the running 8-word state. -/
def sha256Round (st : List ℕ) (wk : ℕ × ℕ) : List ℕ :=
  match st with
  | [a, b, c, d, e, f, g, h] =>
    let ch := (e &&& f) ^^^ ((4294967295 ^^^ e) &&& g)
    let temp1 := w32 (h + bigSigma1 e + ch + wk.2 + wk.1)
    let mj := (a &&& b) ^^^ (a &&& c) ^^^ (b &&& c)
    let temp2 := w32 (bigSigma0 a + mj)
    [w32 (temp1 + temp2), a, b, c, w32 (d + temp1), e, f, g]
  | other => other

/-- Compress one 64-byte block into the hash state. -/
def sha256Compress (hs : List ℕ) (chunk : List ℕ) : List ℕ :=
  let ws := extendSchedule (bytesToWords chunk)
  let st := (ws.zip sha256K).foldl sha256Round hs
  (hs.zip st).map (fun p => w32 (p.1 + p.2))

/-- The eight 32-bit words of the SHA-256 digest of a byte sequence. -/
def sha256Words (msg : List ℕ) : List ℕ :=
  (chunks64 (sha256Pad msg)).foldl sha256Compress sha256H0

def hexDigit (d : ℕ) : Char := if d < 10 then Char.ofNat (48 + d) else Char.ofNat (87 + d)

def toHex8 (n : ℕ) : List Char :=
  (List.range 8).map (fun i => hexDigit ((n >>> (4 * (7 - i))) % 16))

/-- UTF-8 encoding of one code point (the byte values of Python's
`str.encode()`). -/
def utf8Bytes (c : Char) : List ℕ :=
  let n := c.toNat
  if n < 0x80 then [n]
  else if n < 0x800 then [0xC0 + n / 64, 0x80 + n % 64]
  else if n < 0x10000 then [0xE0 + n / 4096, 0x80 + (n / 64) % 64, 0x80 + n % 64]
  else [0xF0 + n / 262144, 0x80 + (n / 4096) % 64, 0x80 + (n / 64) % 64, 0x80 + n % 64]

/-- `s.encode()`: the UTF-8 bytes of a string. -/
def strBytes (s : String) : List ℕ := (s.data.map utf8Bytes).flatten

/-- `hashlib.sha256(s.encode()).hexdigest()`. -/
def sha256Hex (s : String) : String :=
  String.mk (((sha256Words (strBytes s)).map toHex8).flatten)

/-! ## Result assembler (`process_smart_contract`) -/

/-- The analysis record built by `process_smart_contract`.  The
`dependencies`, `state_variables`, `events`, `modifiers`, `inheritance` and
`code_quality` entries are omitted: their methods are absent from `src/` and
the spec (§1, §3) places those sub-analyses outside the engine's scope. -/
structure AnalysisResult where
  contract_code : String
  language : String
  basic_analysis : BasicStructure
  ast_info : AstInfo
  functions : List ContractFunction
  security_patterns : List SecurityPattern
  complexity_metrics : ComplexityMetrics
  code_hash : String
  processing_timestamp : String

/-- `process_smart_contract`.  The wall clock read by
`datetime.now().isoformat()` is an input of the computation and is modelled as
the explicit argument `now`; everything else is a function of the source text
and language tag alone. -/
noncomputable def processSmartContract (code lang now : String) : AnalysisResult :=
  { contract_code := code
    language := lang
    basic_analysis := basicStructure code
    ast_info := parseContractAst code lang
    functions := extractAndAnalyzeFunctions code
    security_patterns := detectSecurityPatterns code
    complexity_metrics := calculateComplexityMetrics code
    code_hash := sha256Hex code
    processing_timestamp := now }

/-- All components of an `AnalysisResult` except the processing timestamp. -/
noncomputable def AnalysisResult.withoutTimestamp (r : AnalysisResult) :
    String × String × BasicStructure × AstInfo × List ContractFunction ×
      List SecurityPattern × ComplexityMetrics × String :=
  (r.contract_code, r.language, r.basic_analysis, r.ast_info, r.functions,
   r.security_patterns, r.complexity_metrics, r.code_hash)

/-! Smoke tests that the primitive string operations have the Python
semantics (substring membership, non-overlapping count, split, strip). -/

example : isSubstr "call".data "msg.sender.call(x)".data = true := by decide
example : isSubstr "pure".data "function f() public".data = false := by decide
example : countSub "&&".data "&&&".data = 1 := by decide
example : countSub "if".data "if (a) if (b)".data = 2 := by decide
example : splitLines "".data = [[]] := by decide
example : splitLines "a\nb".data = [['a'], ['b']] := by decide
example : splitLines "a\n".data = [['a'], []] := by decide
example : trimWs "  ab ".data = ['a', 'b'] := by decide

set_option maxRecDepth 10000 in
/-- The SHA-256 embedding agrees with the standard test vector. -/
theorem sha256Hex_abc :
    sha256Hex "abc" = "ba7816bf8f01cfea414140de5dae2223b00361a396177a9cb410ff61f20015ad" := by
  decide

/-! ## Claim C4: default risk-tier thresholds -/

/-- **C4.** Every pattern category without explicit risk thresholds is tiered
with the default pair (high = 5, medium = 2): `count ≥ 5 → HIGH`,
`count ≥ 2 → MEDIUM`, else `LOW`; in particular a count of exactly 5 is HIGH,
exactly 2 is MEDIUM and exactly 1 is LOW. -/
theorem c4_default_risk_thresholds (pt : String) (n : ℕ)
    (h : riskThresholds.lookup pt = none) :
    assessPatternRiskLevel pt n =
        (if 5 ≤ n then "HIGH" else if 2 ≤ n then "MEDIUM" else "LOW") ∧
      assessPatternRiskLevel pt 5 = "HIGH" ∧
      assessPatternRiskLevel pt 2 = "MEDIUM" ∧
      assessPatternRiskLevel pt 1 = "LOW" := by
  have base : ∀ m, assessPatternRiskLevel pt m =
      (if 5 ≤ m then "HIGH" else if 2 ≤ m then "MEDIUM" else "LOW") := by
    intro m
    simp [assessPatternRiskLevel, h]
  refine ⟨base n, ?_, ?_, ?_⟩ <;> rw [base] <;> norm_num

/-- Witness for C4 at the category `"overflow"`, which has no explicit
thresholds. -/
theorem c4_default_risk_thresholds_witness :
    riskThresholds.lookup "overflow" = none ∧
      assessPatternRiskLevel "overflow" 5 = "HIGH" ∧
      assessPatternRiskLevel "overflow" 2 = "MEDIUM" ∧
      assessPatternRiskLevel "overflow" 1 = "LOW" :=
  ⟨by decide, (c4_default_risk_thresholds "overflow" 5 (by decide)).2⟩

/-! ## Claim C5: the `withdraw` extraction example -/

/-- **C5.** On the single line
`function withdraw() public { msg.sender.call(''); }` the extractor yields
exactly one record: name `withdraw`, visibility `public`, mutability
`nonpayable`, not payable, critical. -/
theorem c5_withdraw_extraction_example :
    extractAndAnalyzeFunctions "function withdraw() public \x7b msg.sender.call(\x27\x27); \x7d" =
      [{ name := "withdraw", line_number := 1,
         signature := "function withdraw() public \x7b msg.sender.call(\x27\x27); \x7d",
         visibility := "public", state_mutability := "nonpayable", modifiers := [],
         parameters := [], return_type := none, is_payable := false, is_critical := true }] := by
  decide

/-! ## Claim C8: the lexical line index on empty input -/

/-- **C8 counterexample.** The zeroed-aggregates part of the claim is false on
the code: `"".split('\n')` is `[""]`, so the empty source has `total_lines = 1`
(and `blank_lines = 1`), not 0. -/
theorem c8_lexical_index_empty_counterexample :
    ¬ ((basicStructure "").total_lines = 0 ∧ (basicStructure "").non_empty_lines = 0 ∧
        (basicStructure "").comment_lines = 0 ∧ (basicStructure "").blank_lines = 0 ∧
        (basicStructure "").average_line_length = 0) := by
  decide

/-- **C8 amended.** The lexical line index is a total function of the input
text; on empty input it returns one (blank) line: `total_lines = 1`,
`non_empty_lines = 0`, `comment_lines = 0`, `blank_lines = 1`, mean line
length 0 (0/1) and max line length 0. -/
theorem c8_lexical_index_empty_amended :
    basicStructure "" =
      { total_lines := 1, non_empty_lines := 0, comment_lines := 0, blank_lines := 1,
        average_line_length := 0, max_line_length := 0 } := by
  simp [basicStructure, splitLines, trimWs]

/-! ## Claim C2: determinism of `process_smart_contract` -/

/-- **C2 counterexample.** Two runs of the engine on the identical source are
not byte-identical records: the embedded `processing_timestamp` (the wall clock
`datetime.now().isoformat()`) differs between the runs. -/
theorem c2_byte_identical_counterexample :
    processSmartContract "contract C" "solidity" "2024-01-01T00:00:00" ≠
      processSmartContract "contract C" "solidity" "2024-01-01T00:00:01" := by
  intro h
  have h2 := congrArg AnalysisResult.processing_timestamp h
  simp only [processSmartContract] at h2
  exact absurd h2 (by decide)

/-- **C2 amended.** Apart from the processing timestamp, the analysis record —
the content hash included — is a pure function of the source text and language
tag: two runs with arbitrary clock readings agree on every other field (so runs
with equal clock readings are byte-identical). -/
theorem c2_determinism_modulo_timestamp (code lang t₁ t₂ : String) :
    (processSmartContract code lang t₁).withoutTimestamp =
        (processSmartContract code lang t₂).withoutTimestamp ∧
      (processSmartContract code lang t₁).code_hash =
        (processSmartContract code lang t₂).code_hash :=
  ⟨rfl, rfl⟩

/-! ## Maintainability-index computation lemmas -/

theorem npLog_zero : npLog 0 = ⊥ := by simp [npLog]

theorem npLog_of_ne {x : ℝ} (h : x ≠ 0) : npLog x = ((Real.log x : ℝ) : EReal) := by
  simp [npLog, h]

theorem ereal_coe_min (a b : ℝ) : ((min a b : ℝ) : EReal) = min (a : EReal) (b : EReal) := by
  rcases le_total a b with h | h
  · rw [min_eq_left h, min_eq_left (EReal.coe_le_coe_iff.mpr h)]
  · rw [min_eq_right h, min_eq_right (EReal.coe_le_coe_iff.mpr h)]

theorem ereal_coe_max (a b : ℝ) : ((max a b : ℝ) : EReal) = max (a : EReal) (b : EReal) := by
  rcases le_total a b with h | h
  · rw [max_eq_right h, max_eq_right (EReal.coe_le_coe_iff.mpr h)]
  · rw [max_eq_left h, max_eq_left (EReal.coe_le_coe_iff.mpr h)]

/-- On the `volume = 0` path (reached whenever either Halstead distinct count
is 0), `np.log 0 = -∞` makes the raw index `+∞`, and the clamp returns 100. -/
theorem maintainabilityIndexCalc_volume_zero (loc cc : ℕ) (h : loc ≠ 0) :
    maintainabilityIndexCalc loc cc 0 = 100 := by
  rw [maintainabilityIndexCalc, if_neg h, npLog_zero]
  rw [EReal.coe_mul_bot_of_pos (by norm_num : (0 : ℝ) < 5.2)]
  rw [EReal.coe_sub_bot]
  have hloc : ((loc : ℕ) : ℝ) ≠ 0 := Nat.cast_ne_zero.mpr h
  rw [npLog_of_ne hloc, ← EReal.coe_mul, ← EReal.coe_mul, EReal.top_sub_coe, EReal.top_sub_coe]
  rw [min_eq_left le_top, max_eq_right (EReal.coe_le_coe_iff.mpr (by norm_num : (0:ℝ) ≤ 100))]
  exact EReal.toReal_coe 100

/-- On the path with a nonzero volume, the `EReal` computation collapses to the
real-number clamp formula. -/
theorem maintainabilityIndexCalc_volume_ne (loc cc : ℕ) (V : ℝ) (hloc : loc ≠ 0)
    (hV : V ≠ 0) :
    maintainabilityIndexCalc loc cc V =
      max 0 (min 100
        (171 - 5.2 * Real.log V - 0.23 * (cc : ℝ) - 16.2 * Real.log (loc : ℝ))) := by
  rw [maintainabilityIndexCalc, if_neg hloc, npLog_of_ne hV,
    npLog_of_ne (Nat.cast_ne_zero.mpr hloc : ((loc : ℕ) : ℝ) ≠ 0)]
  rw [← EReal.coe_mul, ← EReal.coe_mul, ← EReal.coe_mul,
    ← EReal.coe_sub, ← EReal.coe_sub, ← EReal.coe_sub,
    ← ereal_coe_min, ← ereal_coe_max, EReal.toReal_coe]

/-- `_calculate_halstead_metrics` degenerates to zeros when the source has no
operator characters at all. -/
theorem halsteadMetrics_of_no_ops (code : String)
    (h : code.data.filter (fun c => c ∈ opChars) = []) :
    halsteadMetrics code = ⟨0, 0, 0⟩ := by
  rw [halsteadMetrics, h]
  simp

/-! ## Claim C1: the zero-floor on empty source -/

/-- **C1 counterexample.** The maintainability index of the empty source is not
0: the line list of `""` is `[""]` (one line), the Halstead volume is 0, and
`np.log 0 = -∞` drives the unclamped index to `+∞`, which clamps to 100. -/
theorem c1_zero_floor_counterexample :
    (calculateComplexityMetrics "").maintainability_index ≠ 0 := by
  have hmi : (calculateComplexityMetrics "").maintainability_index = 100 := by
    show maintainabilityIndexCalc (splitLines "".data).length (cyclomaticComplexity "")
      (halsteadMetrics "").volume = 100
    rw [halsteadMetrics_of_no_ops "" (by decide)]
    exact maintainabilityIndexCalc_volume_zero _ _ (by decide)
  rw [hmi]
  norm_num

/-- **C1 amended.** On the empty source the engine yields cyclomatic
complexity 1, max nesting depth 0, Halstead volume/difficulty/effort all 0, an
empty function list and empty pattern findings — but the maintainability index
is 100 (the clamp of the `+∞` produced by `np.log 0`), not 0. -/
theorem c1_zero_floor_amended :
    (calculateComplexityMetrics "").cyclomatic_complexity = 1 ∧
      (calculateComplexityMetrics "").max_nesting_depth = 0 ∧
      (calculateComplexityMetrics "").halstead_metrics = ⟨0, 0, 0⟩ ∧
      (calculateComplexityMetrics "").maintainability_index = 100 ∧
      extractAndAnalyzeFunctions "" = [] ∧
      detectSecurityPatterns "" = [] := by
  refine ⟨by decide, by decide, halsteadMetrics_of_no_ops "" (by decide), ?_, by decide, by decide⟩
  show maintainabilityIndexCalc (splitLines "".data).length (cyclomaticComplexity "")
    (halsteadMetrics "").volume = 100
  rw [halsteadMetrics_of_no_ops "" (by decide)]
  exact maintainabilityIndexCalc_volume_zero _ _ (by decide)

/-! ## Claim C3: the maintainability-index formula -/

/-- The maintainability-index formula exactly as the claim words it: clamp of
`171 - 5.2·ln(volume) - 0.23·cc - 16.2·ln(loc)` with the `ln(volume)`
contribution treated as 0 when `volume ≤ 0`, and `loc = 0` short-circuiting
to 0.  (Stated from the spec's words, for comparison with the source
computation `maintainabilityIndexCalc`.) -/
noncomputable def maintainabilityIndexClaimed (loc cc : ℕ) (volume : ℝ) : ℝ :=
  if loc = 0 then 0
  else max 0 (min 100
    (171 - (if volume ≤ 0 then 0 else 5.2 * Real.log volume)
      - 0.23 * (cc : ℝ) - 16.2 * Real.log (loc : ℝ)))

/-- The amended formula: as claimed, except that a volume of exactly 0 (the
only degenerate volume the code produces) yields a clamped result of 100,
because `np.log 0 = -∞` makes the unclamped index `+∞`. -/
noncomputable def maintainabilityIndexAmended (loc cc : ℕ) (volume : ℝ) : ℝ :=
  if loc = 0 then 0
  else if volume = 0 then 100
  else max 0 (min 100
    (171 - 5.2 * Real.log volume - 0.23 * (cc : ℝ) - 16.2 * Real.log (loc : ℝ)))

set_option maxRecDepth 40000 in
/-- **C3 counterexample.** On a single line of 400 `?` characters the code's
maintainability index is 100 (volume 0, so `np.log 0 = -∞` and the clamp of
`+∞`), while the claimed formula (ln-contribution 0 for volume ≤ 0) gives
`171 - 0.23·401 = 78.77`. -/
theorem c3_maintainability_formula_counterexample :
    (calculateComplexityMetrics (String.mk (List.replicate 400 '?'))).maintainability_index ≠
      maintainabilityIndexClaimed
        (splitLines (String.mk (List.replicate 400 '?')).data).length
        (cyclomaticComplexity (String.mk (List.replicate 400 '?')))
        (halsteadMetrics (String.mk (List.replicate 400 '?'))).volume := by
  have hlines : (splitLines (String.mk (List.replicate 400 '?')).data).length = 1 := by decide
  have hcc : cyclomaticComplexity (String.mk (List.replicate 400 '?')) = 401 := by decide
  have hh : halsteadMetrics (String.mk (List.replicate 400 '?')) = ⟨0, 0, 0⟩ :=
    halsteadMetrics_of_no_ops _ (by decide)
  have hmi : (calculateComplexityMetrics (String.mk (List.replicate 400 '?'))).maintainability_index
      = 100 := by
    show maintainabilityIndexCalc (splitLines (String.mk (List.replicate 400 '?')).data).length
      (cyclomaticComplexity (String.mk (List.replicate 400 '?')))
      (halsteadMetrics (String.mk (List.replicate 400 '?'))).volume = 100
    rw [hh, hlines]
    exact maintainabilityIndexCalc_volume_zero _ _ (by norm_num)
  rw [hmi, hh, hlines, hcc]
  rw [maintainabilityIndexClaimed]
  norm_num [Real.log_one]

/-- **C3 amended.** For every source text the maintainability index equals
`clamp(171 - 5.2·ln(volume) - 0.23·cc - 16.2·ln(lines), 0, 100)`, with
`lines = 0` short-circuiting to 0, and with a volume of 0 yielding 100 (the
clamp of the `+∞` produced by `np.log 0 = -∞`) rather than a zeroed
ln-contribution. -/
theorem c3_maintainability_formula_amended (code : String) :
    (calculateComplexityMetrics code).maintainability_index =
      maintainabilityIndexAmended (splitLines code.data).length
        (cyclomaticComplexity code) (halsteadMetrics code).volume := by
  have hloc : (splitLines code.data).length ≠ 0 :=
    fun h => splitLines_ne_nil code.data (List.length_eq_zero.mp h)
  show maintainabilityIndexCalc (splitLines code.data).length
    (cyclomaticComplexity code) (halsteadMetrics code).volume = _
  by_cases hV : (halsteadMetrics code).volume = 0
  · rw [hV, maintainabilityIndexCalc_volume_zero _ _ hloc,
      maintainabilityIndexAmended, if_neg hloc, if_pos rfl]
  · rw [maintainabilityIndexCalc_volume_ne _ _ _ hloc hV,
      maintainabilityIndexAmended, if_neg hloc, if_neg hV]

/-! ## Claim C6: cyclomatic complexity is append-monotone -/

/-- A suffix shorter than the pattern contains no match. -/
theorem countSubAux_zero_of_short (p : List Char) :
    ∀ (s : List Char) (k : ℕ), s.length < p.length → countSubAux p k s = 0 := by
  intro s
  induction s with
  | nil => intro k _; cases k <;> rfl
  | cons c rest ih =>
    intro k h
    cases k with
    | succ k => exact ih k (Nat.lt_of_succ_lt h)
    | zero =>
      by_cases hp : p.isPrefixOf (c :: rest)
      · exfalso
        have := (List.isPrefixOf_iff_prefix.mp hp).length_le
        simp only [List.length_cons] at this h
        omega
      · simp only [countSubAux, if_neg hp]
        exact ih 0 (by simp only [List.length_cons] at h ⊢; omega)

/-- Appending text never removes a match: the greedy non-overlapping scan of
`s ++ t` replays the scan of `s` and can only find further matches. -/
theorem countSubAux_le_append (p : List Char) :
    ∀ (s : List Char) (k : ℕ) (t : List Char),
      countSubAux p k s ≤ countSubAux p k (s ++ t) := by
  intro s
  induction s with
  | nil => intro k t; cases k <;> exact Nat.zero_le _
  | cons c rest ih =>
    intro k t
    cases k with
    | succ k => exact ih k t
    | zero =>
      rw [List.cons_append]
      cases hp : p.isPrefixOf (c :: rest) with
      | true =>
        have hp2 : p.isPrefixOf (c :: (rest ++ t)) = true := by
          rw [List.isPrefixOf_iff_prefix] at hp ⊢
          exact hp.trans (by rw [← List.cons_append]; exact List.prefix_append _ _)
        simp only [countSubAux, hp, hp2, if_true]
        exact Nat.add_le_add_left (ih _ t) 1
      | false =>
        cases hp2 : p.isPrefixOf (c :: (rest ++ t)) with
        | true =>
          have hpre : p <+: (c :: rest) ++ t := by
            rw [List.isPrefixOf_iff_prefix] at hp2
            rw [List.cons_append]
            exact hp2
          have hlen : (c :: rest).length < p.length := by
            by_contra hle
            push_neg at hle
            have hpc : p <+: c :: rest :=
              List.prefix_of_prefix_length_le hpre (List.prefix_append _ _) hle
            have := List.isPrefixOf_iff_prefix.mpr hpc
            rw [hp] at this
            exact Bool.false_ne_true this
          simp only [countSubAux, hp, hp2, Bool.false_eq_true, if_false]
          rw [countSubAux_zero_of_short p rest 0
            (by simp only [List.length_cons] at hlen ⊢; omega)]
          exact Nat.zero_le _
        | false =>
          simp only [countSubAux, hp, hp2, Bool.false_eq_true, if_false]
          exact ih 0 t

theorem countSub_le_append (p s t : List Char) : countSub p s ≤ countSub p (s ++ t) := by
  unfold countSub
  by_cases hp : p = []
  · simp [hp, List.length_append]
  · simp only [if_neg hp]
    exact countSubAux_le_append p s 0 t

theorem foldl_add_eq (f : String → ℕ) :
    ∀ (L : List String) (a : ℕ), L.foldl (fun acc i => acc + f i) a = a + (L.map f).sum := by
  intro L
  induction L with
  | nil => intro a; simp
  | cons i L ih =>
    intro a
    rw [List.foldl_cons, ih, List.map_cons, List.sum_cons, Nat.add_assoc]

theorem strData_append (s t : String) : (s ++ t).data = s.data ++ t.data := by
  cases s; cases t; rfl

/-- **C6.** Appending any suffix to a source text never decreases cyclomatic
complexity: every branching-token count is monotone under appending, and the
metric is 1 plus their sum. -/
theorem c6_cyclomatic_append_monotone (s t : String) :
    cyclomaticComplexity s ≤ cyclomaticComplexity (s ++ t) := by
  unfold cyclomaticComplexity
  rw [foldl_add_eq, foldl_add_eq]
  apply Nat.add_le_add_left
  apply List.sum_le_sum
  intro i _
  show countSub i.data s.data ≤ countSub i.data (s ++ t).data
  rw [strData_append]
  exact countSub_le_append i.data s.data t.data

/-! ## Claim C9: extracted function records are line-ordered -/

theorem analyzeSingleFunction_some_line {line : List Char} {n : ℕ} {f : ContractFunction}
    (h : analyzeSingleFunction line n = some f) : f.line_number = n := by
  unfold analyzeSingleFunction at h
  cases hx : extractFuncName line with
  | none => rw [hx] at h; exact absurd h (by simp)
  | some nm =>
    rw [hx] at h
    rw [← Option.some.inj h]

theorem filterMap_map_sublist {α β γ : Type _} (f : α → Option β) (g : β → γ) (h : α → γ)
    (H : ∀ a b, f a = some b → g b = h a) :
    ∀ L : List α, ((L.filterMap f).map g).Sublist (L.map h) := by
  intro L
  induction L with
  | nil => simp
  | cons a L ih =>
    rw [List.map_cons, List.filterMap_cons]
    cases hf : f a with
    | none => exact ih.trans (List.sublist_cons_self _ _)
    | some b =>
      rw [List.map_cons, H a b hf]
      exact ih.cons₂ _

/-- **C9.** The declaration line numbers of the extracted function records are
strictly increasing in output order (hence pairwise distinct): the extractor
scans the enumerated lines in order and stamps each record with its 1-based
line number. -/
theorem c9_function_line_numbers_ordered (code : String) :
    ((extractAndAnalyzeFunctions code).map ContractFunction.line_number).Sorted (· < ·) ∧
      ((extractAndAnalyzeFunctions code).map ContractFunction.line_number).Pairwise (· ≠ ·) := by
  have hsub : ((extractAndAnalyzeFunctions code).map ContractFunction.line_number).Sublist
      (((splitLines code.data).enum).map (fun il => il.1 + 1)) := by
    apply filterMap_map_sublist
    intro il b hfb
    cases hd : hasFuncDecl il.2 with
    | false => rw [hd] at hfb; exact absurd hfb (by simp)
    | true =>
      rw [hd] at hfb
      simp only [if_true] at hfb
      exact analyzeSingleFunction_some_line hfb
  have hmm : ((splitLines code.data).enum).map (fun il => il.1 + 1)
      = (((splitLines code.data).enum).map Prod.fst).map (· + 1) := by
    rw [List.map_map]
    rfl
  have hsorted : (((splitLines code.data).enum).map (fun il => il.1 + 1)).Sorted (· < ·) := by
    rw [hmm, List.enum_map_fst]
    exact List.Pairwise.map _ (fun hab => by omega) (List.sorted_lt_range _)
  have hs := List.Pairwise.sublist hsub hsorted
  exact ⟨hs, hs.imp (fun hab => ne_of_lt hab)⟩

/-! ## Claims C7 and C10: pattern-finding invariants -/

/-- Closed form of the location list accumulated by the pattern-detector double
loop, starting the line enumeration at index `n`: each line contributes its
1-based number once per keyword that occurs in it. -/
def patternLocsFrom (kws : List String) : ℕ → List (List Char) → List ℕ
  | _, [] => []
  | n, l :: ls =>
    ((kws.filter (fun kw => isSubstr kw.data l)).map (fun _ => n + 1))
      ++ patternLocsFrom kws (n + 1) ls

theorem patternHits_inner_fold (kws : List String) (l : List Char) (i : ℕ)
    (acc : ℕ × List ℕ) :
    kws.foldl
        (fun acc2 kw =>
          if isSubstr kw.data l then (acc2.1 + 1, acc2.2 ++ [i + 1]) else acc2) acc
      = (acc.1 + (kws.filter (fun kw => isSubstr kw.data l)).length,
         acc.2 ++ (kws.filter (fun kw => isSubstr kw.data l)).map (fun _ => i + 1)) := by
  induction kws generalizing acc with
  | nil => simp
  | cons kw kws ih =>
    rw [List.foldl_cons, List.filter_cons]
    cases hkw : isSubstr kw.data l with
    | false =>
      simp only [Bool.false_eq_true, if_false]
      exact ih acc
    | true =>
      simp only [eq_self_iff_true, if_true]
      rw [ih ((acc.1 + 1, acc.2 ++ [i + 1]))]
      simp [List.append_assoc]
      omega

theorem patternHits_foldl_eq (kws : List String) :
    ∀ (lines : List (List Char)) (n : ℕ) (acc : ℕ × List ℕ),
      ((lines.enumFrom n).foldl
          (fun acc il =>
            kws.foldl
              (fun acc2 kw =>
                if isSubstr kw.data il.2 then (acc2.1 + 1, acc2.2 ++ [il.1 + 1]) else acc2)
              acc)
          acc)
        = (acc.1 + (patternLocsFrom kws n lines).length,
           acc.2 ++ patternLocsFrom kws n lines) := by
  intro lines
  induction lines with
  | nil => intro n acc; simp [patternLocsFrom]
  | cons l ls ih =>
    intro n acc
    show ((l :: ls).enumFrom n).foldl _ acc = _
    rw [show (l :: ls).enumFrom n = (n, l) :: ls.enumFrom (n + 1) from rfl]
    rw [List.foldl_cons, patternHits_inner_fold, ih, patternLocsFrom]
    simp [List.append_assoc, List.length_append]
    omega

/-- The detector's accumulated pair is exactly (length of the closed-form
location list, the closed-form location list). -/
theorem patternHits_eq (kws : List String) (lines : List (List Char)) :
    patternHits kws lines
      = ((patternLocsFrom kws 0 lines).length, patternLocsFrom kws 0 lines) := by
  unfold patternHits
  rw [show lines.enum = lines.enumFrom 0 from rfl, patternHits_foldl_eq]
  simp

theorem patternLocsFrom_mem_lower (kws : List String) :
    ∀ (lines : List (List Char)) (n : ℕ) (x : ℕ),
      x ∈ patternLocsFrom kws n lines → n + 1 ≤ x := by
  intro lines
  induction lines with
  | nil => intro n x hx; exact absurd hx (by simp [patternLocsFrom])
  | cons l ls ih =>
    intro n x hx
    rw [patternLocsFrom, List.mem_append] at hx
    rcases hx with hx | hx
    · rcases List.mem_map.mp hx with ⟨kw, _, rfl⟩
      exact le_refl _
    · exact le_trans (by omega) (ih (n + 1) x hx)

theorem patternLocsFrom_sorted (kws : List String) :
    ∀ (lines : List (List Char)) (n : ℕ),
      (patternLocsFrom kws n lines).Sorted (· ≤ ·) := by
  intro lines
  induction lines with
  | nil => intro n; simp [patternLocsFrom]
  | cons l ls ih =>
    intro n
    rw [patternLocsFrom]
    rw [List.Sorted, List.pairwise_append]
    refine ⟨?_, ih (n + 1), ?_⟩
    · rw [List.map_const']
      rw [List.pairwise_replicate]
      exact Or.inr (le_refl _)
    · intro x hx y hy
      rcases List.mem_map.mp hx with ⟨kw, _, rfl⟩
      exact le_trans (by omega) (patternLocsFrom_mem_lower kws ls (n + 1) y hy)

theorem patternLocsFrom_count (kws : List String) :
    ∀ (lines : List (List Char)) (n i : ℕ), i < lines.length →
      (patternLocsFrom kws n lines).count (n + i + 1)
        = (kws.filter (fun kw => isSubstr kw.data (lines.getD i []))).length := by
  intro lines
  induction lines with
  | nil => intro n i hi; exact absurd hi (by simp)
  | cons l ls ih =>
    intro n i hi
    rw [patternLocsFrom, List.count_append]
    cases i with
    | zero =>
      have h1 : ((kws.filter (fun kw => isSubstr kw.data l)).map
          (fun _ => n + 1)).count (n + 0 + 1)
          = (kws.filter (fun kw => isSubstr kw.data l)).length := by
        rw [List.map_const']
        simp
      have h2 : (patternLocsFrom kws (n + 1) ls).count (n + 0 + 1) = 0 := by
        rw [List.count_eq_zero]
        intro hmem
        have := patternLocsFrom_mem_lower kws ls (n + 1) _ hmem
        omega
      rw [h1, h2]
      simp
    | succ i =>
      have h1 : ((kws.filter (fun kw => isSubstr kw.data l)).map
          (fun _ => n + 1)).count (n + (i + 1) + 1) = 0 := by
        rw [List.count_eq_zero]
        intro hmem
        rcases List.mem_map.mp hmem with ⟨kw, _, hkw⟩
        omega
      have h2 := ih (n + 1) i (by simpa using Nat.lt_of_succ_lt_succ hi)
      rw [h1]
      rw [show n + (i + 1) + 1 = (n + 1) + i + 1 by omega, h2]
      simp

theorem detectSecurityPatterns_mem {code : String} {f : SecurityPattern}
    (hf : f ∈ detectSecurityPatterns code) :
    ∃ pk ∈ securityKeywords,
      0 < (patternHits pk.2 (splitLines code.data)).1 ∧
        f = { pattern_type := pk.1,
              count := (patternHits pk.2 (splitLines code.data)).1,
              locations := (patternHits pk.2 (splitLines code.data)).2,
              risk_level := assessPatternRiskLevel pk.1 (patternHits pk.2 (splitLines code.data)).1,
              description :=
                generatePatternDescription pk.1 (patternHits pk.2 (splitLines code.data)).1 } := by
  unfold detectSecurityPatterns at hf
  rcases List.mem_filterMap.mp hf with ⟨pk, hpk, hsome⟩
  by_cases hpos : 0 < (patternHits pk.2 (splitLines code.data)).1
  · rw [if_pos hpos] at hsome
    exact ⟨pk, hpk, hpos, (Option.some.inj hsome).symm⟩
  · rw [if_neg hpos] at hsome
    exact absurd hsome (by simp)

/-- **C7.** Every emitted `PatternFinding` has a positive match count and a
non-decreasing (ascending) location list; the findings appear in the
declaration order of the category table; and a category whose scan produced
zero hits contributes no finding. -/
theorem c7_pattern_findings_invariants (code : String) :
    (∀ f ∈ detectSecurityPatterns code,
        0 < f.count ∧ f.locations.Sorted (· ≤ ·)) ∧
      ((detectSecurityPatterns code).map SecurityPattern.pattern_type).Sublist
        (securityKeywords.map Prod.fst) ∧
      (∀ pk ∈ securityKeywords, (patternHits pk.2 (splitLines code.data)).1 = 0 →
        ∀ f ∈ detectSecurityPatterns code, f.pattern_type ≠ pk.1) := by
  refine ⟨?_, ?_, ?_⟩
  · intro f hf
    rcases detectSecurityPatterns_mem hf with ⟨pk, _, hpos, rfl⟩
    refine ⟨hpos, ?_⟩
    show (patternHits pk.2 (splitLines code.data)).2.Sorted (· ≤ ·)
    rw [patternHits_eq]
    exact patternLocsFrom_sorted pk.2 _ 0
  · unfold detectSecurityPatterns
    apply filterMap_map_sublist
    intro pk f hsome
    by_cases hpos : 0 < (patternHits pk.2 (splitLines code.data)).1
    · rw [if_pos hpos] at hsome
      rw [← Option.some.inj hsome]
    · rw [if_neg hpos] at hsome
      exact absurd hsome (by simp)
  · intro pk hpk hzero f hf heq
    rcases detectSecurityPatterns_mem hf with ⟨pk', hpk', hpos, rfl⟩
    have hfst : pk'.1 = pk.1 := heq
    have hkeys : (securityKeywords.map Prod.fst).Nodup := by decide
    have : pk' = pk := List.inj_on_of_nodup_map hkeys hpk' hpk hfst
    rw [this] at hpos
    omega

/-- The `selfdestruct` finding produced on the one-line source
`"selfdestruct"`. -/
def c7WitnessPattern : SecurityPattern :=
  { pattern_type := "selfdestruct", count := 1, locations := [1], risk_level := "HIGH",
    description := "檢測到 1 個 selfdestruct 模式" }

/-- Witness for C7 on the one-line source `"selfdestruct"` and its
`selfdestruct` finding. -/
theorem c7_pattern_findings_invariants_witness :
    c7WitnessPattern ∈ detectSecurityPatterns "selfdestruct" ∧
      0 < c7WitnessPattern.count ∧ c7WitnessPattern.locations.Sorted (· ≤ ·) :=
  ⟨by decide, (c7_pattern_findings_invariants "selfdestruct").1 c7WitnessPattern (by decide)⟩

/-- **C10.** For every emitted finding the location list length equals the
match count, and for each line the number of recorded hits with that line
number equals the number of the category's keywords occurring in that line —
each keyword contributes at most one hit per line, however often it occurs
inside the line. -/
theorem c10_locations_count_invariant (code : String) :
    ∀ f ∈ detectSecurityPatterns code,
      f.count = f.locations.length ∧
        ∃ kws, (f.pattern_type, kws) ∈ securityKeywords ∧
          ∀ i, i < (splitLines code.data).length →
            f.locations.count (i + 1)
              = (kws.filter
                  (fun kw => isSubstr kw.data ((splitLines code.data).getD i []))).length := by
  intro f hf
  rcases detectSecurityPatterns_mem hf with ⟨pk, hpk, _, rfl⟩
  constructor
  · show (patternHits pk.2 (splitLines code.data)).1
      = (patternHits pk.2 (splitLines code.data)).2.length
    rw [patternHits_eq]
  · refine ⟨pk.2, by simpa using hpk, ?_⟩
    intro i hi
    show (patternHits pk.2 (splitLines code.data)).2.count (i + 1) = _
    rw [patternHits_eq]
    have := patternLocsFrom_count pk.2 (splitLines code.data) 0 i hi
    simpa using this

/-- The `reentrancy` finding produced on the one-line source `"call"`. -/
def c10WitnessPattern : SecurityPattern :=
  { pattern_type := "reentrancy", count := 1, locations := [1], risk_level := "MEDIUM",
    description := "檢測到 1 個可能的重入攻擊點" }

/-- Witness for C10 on the one-line source `"call"` and its `reentrancy`
finding. -/
theorem c10_locations_count_invariant_witness :
    c10WitnessPattern ∈ detectSecurityPatterns "call" ∧
      (c10WitnessPattern.count = c10WitnessPattern.locations.length ∧
        ∃ kws, (c10WitnessPattern.pattern_type, kws) ∈ securityKeywords ∧
          ∀ i, i < (splitLines "call".data).length →
            c10WitnessPattern.locations.count (i + 1)
              = (kws.filter
                  (fun kw => isSubstr kw.data ((splitLines "call".data).getD i []))).length) :=
  ⟨by decide, c10_locations_count_invariant "call" c10WitnessPattern (by decide)⟩

end RwaEngine
